import Mathlib

/-
Verification of the market-value reconciliation engine of TCGNakama.

Shallow embedding of the price-resolution pipeline:
  - src/app/services/appraisal.py   (interactive appraisal: cache, tiers, cascade, Gemini, FX)
  - src/app/services/price_tracker.py (batch revaluation runner)
  - src/app/routers/store.py        (gainers / hot-picks ranking)

Conventions of the embedding:
  - Python floats are modeled as exact rationals; the claims proved here
    (positivity, minimum selection, percentage formulas at exact inputs) do not
    depend on binary rounding of IEEE doubles.
  - Python round(x, n) rounds half-even; pyRound1/pyRound2 embed that tie rule
    exactly, on rationals.
  - External effects (PriceCharting HTTP, Gemini, Frankfurter FX, the database)
    are passed in as explicit outcome values; a network call is represented by
    the outcome being consumed, and call counts are returned explicitly where a
    claim is about the number of calls.
  - str.upper / str.lower are embedded for ASCII letters; all repository
    keywords and probe data are ASCII or CJK characters left unchanged by both.
-/

/-! ## Character and string helpers (ASCII case folding, containment) -/

/-- ASCII uppercase of a character; non-lowercase characters are unchanged. -/
def charUp (c : Char) : Char :=
  if c.isLower then Char.ofNat (c.toNat - 32) else c

/-- ASCII lowercase of a character; non-uppercase characters are unchanged. -/
def charDown (c : Char) : Char :=
  if c.isUpper then Char.ofNat (c.toNat + 32) else c

def upL (s : List Char) : List Char := s.map charUp

def downL (s : List Char) : List Char := s.map charDown

/-- Boolean test that `pat` begins the list `hay` (Python startswith on chars). -/
def startsWithL : List Char → List Char → Bool
  | [], _ => true
  | _ :: _, [] => false
  | a :: as, b :: bs => a = b && startsWithL as bs

/-- Boolean test that `pat` occurs contiguously inside `hay`: the Python
substring operator `pat in hay`. -/
def containsL (pat : List Char) : List Char → Bool
  | [] => startsWithL pat []
  | c :: cs => startsWithL pat (c :: cs) || containsL pat cs

/-- Python `pat in hay` on raw strings (case sensitive). -/
def strHas (hay pat : String) : Bool := containsL pat.toList hay.toList

/-- Python `pat.upper() in hay.upper()`. -/
def strHasUp (hay pat : String) : Bool := containsL (upL pat.toList) (upL hay.toList)

/-- Python `pat in hay.lower()` for an already-lowercase pattern. -/
def strHasDown (hay pat : String) : Bool := containsL pat.toList (downL hay.toList)

/-- Python whitespace class used by the regexes and str.strip in the sources. -/
def isPySpace (c : Char) : Bool := c = ' ' || c = '\t' || c = '\n' || c = '\r'

/-- Drop the characters satisfying `p` from both ends (Python str.strip(chars)). -/
def stripAround (p : Char → Bool) (s : List Char) : List Char :=
  ((s.dropWhile p).reverse.dropWhile p).reverse

/-- Python `s.lstrip(zero) or zero`: drop leading zeros, but a string of only
zeros collapses to a single zero (appraisal.py line 916, price_tracker.py line 160). -/
def lstripZeros (s : List Char) : List Char :=
  let t := s.dropWhile (fun c => c = '0')
  if t.isEmpty then ['0'] else t

/-! ## Rounding and truncation as in Python -/

/-- Floor of a rational as explicit integer arithmetic (euclidean division by
the positive denominator), so that concrete witnesses evaluate inside the
kernel. -/
def ratFloorZ (q : ℚ) : ℤ := q.num / (q.den : ℤ)

theorem ratFloorZ_eq_floor (q : ℚ) : ratFloorZ q = ⌊q⌋ := Rat.floor_def.symm

/-- Python round to the nearest integer with half-even ties, on exact
rationals. -/
def pyRoundInt (q : ℚ) : ℤ :=
  if q - (ratFloorZ q : ℚ) < 1/2 then ratFloorZ q
  else if 1/2 < q - (ratFloorZ q : ℚ) then ratFloorZ q + 1
  else if ratFloorZ q % 2 = 0 then ratFloorZ q else ratFloorZ q + 1

/-- Python round(x, 2). -/
def pyRound2 (q : ℚ) : ℚ := ((pyRoundInt (q * 100) : ℤ) : ℚ) / 100

/-- Python round(x, 1). -/
def pyRound1 (q : ℚ) : ℚ := ((pyRoundInt (q * 10) : ℤ) : ℚ) / 10

/-- Python int(x): truncation toward zero, num tdiv den. -/
def pyInt (q : ℚ) : ℤ := Int.tdiv q.num (q.den : ℤ)

/-! ## Data model -/

/-- One price candidate returned by a source fetcher: product title, the
PriceCharting console (set) label, and a positive USD price.  Mirrors the
dicts built at appraisal.py lines 830-836 (API tier; the scrape tier at line
1053 builds the same shape with no console label). -/
structure Candidate where
  name : String
  consoleName : String
  price : ℚ
deriving DecidableEq, Repr

/-! ## Filter cascade of the API tier (appraisal.py, `_try_pricecharting_api`) -/

/-- Stage 1, name containment (appraisal.py lines 844-869): keep the candidates
whose title contains the extracted English card name, case-insensitively; if the
extracted name is empty or nothing hits, keep the working set unchanged.  The
regex extraction of the English name from the raw title (lines 849-852) is not
embedded; the extracted name is a parameter. -/
def nameFilter (cardNameEnglish : String) (valid : List Candidate) : List Candidate :=
  if cardNameEnglish = "" then valid
  else
    let hits := valid.filter (fun item => strHasUp item.name cardNameEnglish)
    if hits.isEmpty then valid else hits

/-- Stage 2, set-name containment (appraisal.py lines 871-885): applied only
when a usable set name is present; keeps the previous result set when no
candidate hits. -/
def setFilter (setName : String) (prev : List Candidate) : List Candidate :=
  if setName = "" || setName = "Unknown" then prev
  else
    let hits := prev.filter (fun item => strHasUp item.name setName)
    if hits.isEmpty then prev else hits

/-- Characters removed by the normalization regex sub of hash, dash, slash and
whitespace (appraisal.py lines 892 and 904). -/
def stripNumSeps (s : List Char) : List Char :=
  s.filter (fun c => !(c = '#' || c = '-' || c = '/' || isPySpace c))

/-- First number of a card number: split on slash or dash, take the first
piece, strip hash marks then whitespace (appraisal.py line 912). -/
def firstNumOf (s : List Char) : List Char :=
  stripAround isPySpace (stripAround (fun c => c = '#') (s.takeWhile (fun c => !(c = '/' || c = '-'))))

/-- Card-number search variations (appraisal.py lines 896-917): the original
form, the separator-free form, the dash-for-slash form when a slash is present,
the first number, and the first number without leading zeros; all uppercased.
The Python code collects them in a set; only membership is ever used, so
duplicates in this list are harmless. -/
def numberVariations (cardNumber : String) : List (List Char) :=
  let s := cardNumber.toList
  let firstNum := firstNumOf s
  [upL s, upL (stripNumSeps s)]
    ++ (if s.contains '/' then [upL (s.map (fun c => if c = '/' then '-' else c))] else [])
    ++ [upL firstNum, upL (lstripZeros firstNum)]

/-- Stage 3, card-number variant match (appraisal.py lines 887-937): keep the
candidates whose uppercased title contains any variation; if the card number is
empty or nothing hits, keep the previous result set. -/
def numberFilter (cardNumber : String) (prev : List Candidate) : List Candidate :=
  if cardNumber = "" then prev
  else
    let vars := numberVariations cardNumber
    let hits := prev.filter (fun item => vars.any (fun v => containsL v (upL item.name.toList)))
    if hits.isEmpty then prev else hits

/-- Language keywords checked by `_filter_by_language` (appraisal.py line 684). -/
def japaneseKeywords : List String := ["japanese", "japan", "jpn", "日本"]

/-- Language keywords checked by `_filter_by_language` (appraisal.py line 685). -/
def englishKeywords : List String := ["english", "eng"]

/-- Japanese label test on title and console label (appraisal.py lines 687-691). -/
def hasJapaneseLabel (r : Candidate) : Bool :=
  japaneseKeywords.any (fun kw => strHasDown r.name kw)
    || japaneseKeywords.any (fun kw => strHasDown r.consoleName kw)

/-- English label test on title and console label (appraisal.py lines 693-697). -/
def hasEnglishLabel (r : Candidate) : Bool :=
  englishKeywords.any (fun kw => strHasDown r.name kw)
    || englishKeywords.any (fun kw => strHasDown r.consoleName kw)

def hasAnyLanguageLabel (r : Candidate) : Bool :=
  hasJapaneseLabel r || hasEnglishLabel r

/-- Stage 4, language match: `_filter_by_language` (appraisal.py lines 660-735).
Japanese target: explicitly Japanese-labeled candidates first, else unlabeled
candidates, else everything.  English target: drop the Japanese-labeled
candidates unless that would empty the set. -/
def filterByLanguage (results : List Candidate) (isJapanese : Bool) : List Candidate :=
  if results.isEmpty then results
  else if isJapanese then
    let japaneseLabeled := results.filter hasJapaneseLabel
    if !japaneseLabeled.isEmpty then japaneseLabeled
    else
      let unlabeled := results.filter (fun r => !hasAnyLanguageLabel r)
      if !unlabeled.isEmpty then unlabeled else results
  else
    let nonJapanese := results.filter (fun r => !hasJapaneseLabel r)
    if !nonJapanese.isEmpty then nonJapanese else results

/-- Full four-stage cascade of the API tier, in source order (appraisal.py
lines 844-941). -/
def filterCascade (cardNameEnglish setName cardNumber : String) (isJapanese : Bool)
    (valid : List Candidate) : List Candidate :=
  filterByLanguage
    (numberFilter cardNumber (setFilter setName (nameFilter cardNameEnglish valid)))
    isJapanese

/-! ## Disambiguation oracle (Gemini) -/

/-- Outcome of one potential Gemini interaction.  `noKey` is the configured-key
check failing (no network call); `failBeforeCall` is an exception before the
request is issued (no network call); `failAfterCall` is a timeout, transport
error or malformed verdict after the request went out; `verdict` is a parsed
JSON list of 1-based indices. -/
inductive OracleOutcome where
  | noKey
  | failBeforeCall
  | failAfterCall
  | verdict (indices : List ℤ)
deriving DecidableEq, Repr

/-- Index selection shared by both Gemini consumers: the guarded comprehension
`[results[i-1] for i in indices if 0 < i <= len(results)]`
(appraisal.py line 650, price_tracker.py line 75).  The guard makes every
access in bounds, so the embedding is a total function. -/
def selectByIndices (indices : List ℤ) (results : List Candidate) : List Candidate :=
  indices.filterMap (fun i =>
    if h : 0 < i ∧ i ≤ (results.length : ℤ) then
      some (results.get ⟨(i - 1).toNat, by omega⟩)
    else none)

/-- Embedding of `_gemini_filter_cards` (appraisal.py lines 555-657): no key or
any exception falls back to the full input; an empty verdict returns the empty
list (lines 645-647); a non-empty verdict keeps the selected candidates unless
every index was out of range, in which case the full input is kept (line 653). -/
def geminiFilterCards (oracle : OracleOutcome) (results : List Candidate) : List Candidate :=
  match oracle with
  | .noKey => results
  | .failBeforeCall => results
  | .failAfterCall => results
  | .verdict indices =>
    if indices.isEmpty then []
    else if (selectByIndices indices results).isEmpty then results
    else selectByIndices indices results

/-- Number of Gemini requests issued by one `_gemini_filter_cards` run: the
call at appraisal.py line 633 is reached unless the key is missing or an
exception fired before it. -/
def geminiFilterCallCount (oracle : OracleOutcome) : ℕ :=
  match oracle with
  | .noKey => 0
  | .failBeforeCall => 0
  | .failAfterCall => 1
  | .verdict _ => 1

/-- Embedding of `_gemini_disambiguate` (price_tracker.py lines 29-83): with at
most 3 candidates Gemini is skipped entirely (lines 31-32); otherwise an empty
or fully out-of-range verdict, a missing key, or any exception falls back to
the full input. -/
def geminiDisambiguate (oracle : OracleOutcome) (results : List Candidate) : List Candidate :=
  if results.length ≤ 3 then results
  else
    match oracle with
    | .verdict indices =>
      if indices.isEmpty then results
      else if (selectByIndices indices results).isEmpty then results
      else selectByIndices indices results
    | _ => results

/-- Number of Gemini requests issued by one `_gemini_disambiguate` run. -/
def geminiDisambiguateCallCount (oracle : OracleOutcome) (results : List Candidate) : ℕ :=
  if results.length ≤ 3 then 0 else geminiFilterCallCount oracle

/-! ## Final selection -/

/-- Python `min(candidates, key=lambda x: x["price"])` on a nonempty list:
returns the first candidate of minimal price. -/
def minPriceCand (h : Candidate) (t : List Candidate) : Candidate :=
  t.foldl (fun acc c => if c.price < acc.price then c else acc) h

/-- Cheapest-price selection used by the batch pipeline (price_tracker.py line
173) and the fallback of the API tier; `none` models the ValueError that
`min` raises on an empty list, which the enclosing handlers turn into None. -/
def cheapestPrice : List Candidate → Option ℚ
  | [] => none
  | h :: t => some (minPriceCand h t).price

/-- Tail of `_try_pricecharting_api` (appraisal.py lines 950-961): Gemini runs
on the post-cascade list; a non-empty Gemini result yields the price of its
first element ("best match"), and only an empty Gemini result falls back to
the cheapest of the full filtered list. -/
def pricechartingApiSelect (oracle : OracleOutcome) (filteredPrices : List Candidate) : Option ℚ :=
  match geminiFilterCards oracle filteredPrices with
  | g :: _ => some g.price
  | [] => cheapestPrice filteredPrices

/-- The whole post-fetch phase of `_try_pricecharting_api` (appraisal.py lines
839-961) with its Gemini call count: an empty fetched list returns early with
no Gemini call (lines 839-841); otherwise the cascade narrows the list and
Gemini is invoked unconditionally on the result (line 950), whatever its size. -/
def pricechartingApiResolve (oracle : OracleOutcome)
    (cardNameEnglish setName cardNumber : String) (isJapanese : Bool)
    (validPrices : List Candidate) : Option ℚ × ℕ :=
  if validPrices.isEmpty then (none, 0)
  else
    let filtered := filterCascade cardNameEnglish setName cardNumber isJapanese validPrices
    (pricechartingApiSelect oracle filtered, geminiFilterCallCount oracle)

/-- Tail of `_try_pricecharting_scrape` (appraisal.py lines 1209-1263): when
Gemini returns nothing the filtered candidates are abandoned and the tier falls
back to scraping suggestion links (modeled by `suggestionPrice`, the price the
detail pages would yield, or none); a non-empty Gemini result is language
filtered and the cheapest survivor is returned. -/
def pricechartingScrapeSelect (oracle : OracleOutcome) (suggestionPrice : Option ℚ)
    (filteredResults : List Candidate) (isJapanese : Bool) : Option ℚ :=
  match geminiFilterCards oracle filteredResults with
  | [] => suggestionPrice
  | m :: ms => cheapestPrice (filterByLanguage (m :: ms) isJapanese)

/-! ## Batch single-card fetch (price_tracker.py, `_fetch_single_price`) -/

/-- Card-number variations of the batch path (price_tracker.py lines 156-160):
the hash-free uppercased number, its separator-free form, the first number and
the first number without leading zeros. -/
def batchNumberVariations (cardNumber : String) : List (List Char) :=
  let cleanNum := upL (cardNumber.toList.filter (fun c => !(c = '#')))
  let first := stripAround isPySpace (cleanNum.takeWhile (fun c => !(c = '/' || c = '-')))
  [cleanNum, cleanNum.filter (fun c => !(c = '-' || c = '/' || isPySpace c)),
    first, lstripZeros first]

/-- Card-number narrowing of the batch path (price_tracker.py lines 154-167):
keeps the full list when the number is empty or nothing hits. -/
def batchNumberFilter (cardNumber : String) (valid : List Candidate) : List Candidate :=
  if cardNumber = "" then valid
  else
    let hits := valid.filter (fun v =>
      (batchNumberVariations cardNumber).any (fun var => containsL var (upL v.name.toList)))
    if hits.isEmpty then valid else hits

/-- Post-fetch phase of `_fetch_single_price` (price_tracker.py lines 144-174):
number narrowing, size-gated Gemini disambiguation, then cheapest-price pick. -/
def fetchSinglePriceSelect (oracle : OracleOutcome) (cardNumber : String)
    (valid : List Candidate) : Option ℚ :=
  match valid with
  | [] => none
  | v :: vs => cheapestPrice (geminiDisambiguate oracle (batchNumberFilter cardNumber (v :: vs)))

/-- Gemini requests issued by one `_fetch_single_price` run. -/
def fetchSinglePriceCallCount (oracle : OracleOutcome) (cardNumber : String)
    (valid : List Candidate) : ℕ :=
  match valid with
  | [] => 0
  | v :: vs => geminiDisambiguateCallCount oracle (batchNumberFilter cardNumber (v :: vs))

/-! ## Mock estimate tier (appraisal.py, `_mock_estimate`) -/

/-- Base USD values by rarity with default 1.00 (appraisal.py lines 1364-1375). -/
def baseValueOfRarity (rarity : String) : ℚ :=
  if rarity = "Common" then 1/2
  else if rarity = "Uncommon" then 3/2
  else if rarity = "Rare" then 5
  else if rarity = "Epic" then 15
  else if rarity = "Ultra Rare" then 50
  else if rarity = "Holo Rare" then 20
  else if rarity = "Secret Rare" then 100
  else 1

/-- Combined multiplier contributed by one variant string (appraisal.py lines
1378-1387).  The four ifs are independent in the source, so a variant
containing "Reverse Holo" also triggers the "Holo" branch, exactly as there. -/
def variantMultiplier (v : String) : ℚ :=
  (if strHas v "1st Edition" || strHas v "First Edition" then (5 : ℚ)/2 else 1)
    * (if strHas v "Holographic" || strHas v "Holo" then (9 : ℚ)/5 else 1)
    * (if strHas v "Reverse Holo" then (13 : ℚ)/10 else 1)
    * (if strHas v "Shadowless" then 3 else 1)

def popularSets : List String := ["Base Set", "Jungle", "Fossil", "Team Rocket", "Neo Genesis"]

def popularNames : List String := ["Charizard", "Pikachu", "Mewtwo", "Lugia", "Rayquaza"]

/-- Base value after the variant multipliers (appraisal.py lines 1375-1387);
a `none` variants argument mirrors Python None, which skips the loop. -/
def mockAfterVariants (rarity : String) (variants : Option (List String)) : ℚ :=
  match variants with
  | none => baseValueOfRarity rarity
  | some vs => vs.foldl (fun acc v => acc * variantMultiplier v) (baseValueOfRarity rarity)

/-- Popular-set multiplier (appraisal.py lines 1389-1392). -/
def mockAfterSets (setName : String) (b : ℚ) : ℚ :=
  if popularSets.any (fun s => strHas setName s) then b * (3/2) else b

/-- Popular-name multiplier (appraisal.py lines 1394-1397). -/
def mockAfterNames (cardName : String) (b : ℚ) : ℚ :=
  if popularNames.any (fun n => strHas cardName n) then b * 3 else b

/-- Embedding of `_mock_estimate` (appraisal.py lines 1346-1399): rarity base
value, per-variant multipliers, popular-set and popular-name multipliers,
rounded to cents. -/
def mockEstimate (cardName rarity setName : String) (variants : Option (List String)) : ℚ :=
  pyRound2 (mockAfterNames cardName (mockAfterSets setName (mockAfterVariants rarity variants)))

/-! ## Tiered USD estimation and the appraisal orchestrator -/

/-- Identity of a card as passed to `get_market_value_jpy` (appraisal.py lines
349-356). -/
structure CardQuery where
  cardName : String
  rarity : String
  setName : String
  cardNumber : String
  variants : Option (List String)
deriving DecidableEq, Repr

/-- Outcome of the Frankfurter currency request inside `get_market_value_jpy`
(appraisal.py lines 399-425): a 200 response carrying the converted JPY amount
and a date string, a non-200 status, or a timeout / transport error. -/
inductive FxOutcome where
  | ok (jpyAmount : ℚ) (date : String)
  | non200
  | failed
deriving DecidableEq, Repr

/-- External-world outcomes consumed by one fresh interactive resolution: the
USD price produced by the API tier (`None` when it fails or finds nothing),
the same for the scrape tier, and the FX outcome. -/
structure PriceEnv where
  apiPrice : Option ℚ
  scrapePrice : Option ℚ
  fx : FxOutcome
deriving DecidableEq, Repr

/-- Python truthiness of a tier result as used by `if price:` (appraisal.py
lines 474 and 480): None and 0.0 both fall through to the next tier. -/
def tierValue : Option ℚ → Option ℚ
  | none => none
  | some v => if v = 0 then none else some v

/-- Embedding of `estimate_market_value_usd` (appraisal.py lines 445-485):
API tier, then scrape tier, then the mock estimate. -/
def estimateMarketValueUsd (env : PriceEnv) (card : CardQuery) : ℚ :=
  match tierValue env.apiPrice with
  | some p => p
  | none =>
    match tierValue env.scrapePrice with
    | some p => p
    | none => mockEstimate card.cardName card.rarity card.setName card.variants

/-- Reference USD to JPY fallback rate of the interactive path (appraisal.py
line 395). -/
def fallbackUsdJpyRate : ℚ := 1537/10

/-- Currency-conversion step of `get_market_value_jpy` (appraisal.py lines
394-425): on a 200 response the JPY amount is the API answer and the rate is
recomputed from it; on any failure the fallback constant and the marker date
"estimated" are kept.  Returns (market JPY, exchange rate, rate date). -/
def convertUsdToJpy (marketUsd : ℚ) (fx : FxOutcome) : ℚ × ℚ × String :=
  match fx with
  | .ok jpyAmount date => (jpyAmount, jpyAmount / marketUsd, date)
  | _ => (marketUsd * fallbackUsdJpyRate, fallbackUsdJpyRate, "estimated")

/-- Successful result dict of `get_market_value_jpy` (appraisal.py lines
427-433). -/
structure MarketValueOk where
  marketUsd : ℚ
  marketJpy : ℤ
  exchangeRate : ℚ
  rateDate : String
  confidence : String
deriving DecidableEq, Repr

instance {ε α : Type} [DecidableEq ε] [DecidableEq α] : DecidableEq (Except ε α) := fun
  | .ok a, .ok b =>
    if h : a = b then .isTrue (by rw [h]) else .isFalse (by simp [h])
  | .ok _, .error _ => .isFalse (by simp)
  | .error _, .ok _ => .isFalse (by simp)
  | .error a, .error b =>
    if h : a = b then .isTrue (by rw [h]) else .isFalse (by simp [h])

/-- Result dict assembled at appraisal.py lines 427-433 from the USD estimate
and the conversion step. -/
def marketValueResult (marketUsd : ℚ) (fx : FxOutcome) : MarketValueOk :=
  { marketUsd := pyRound2 marketUsd
    marketJpy := pyInt (convertUsdToJpy marketUsd fx).1
    exchangeRate := pyRound2 (convertUsdToJpy marketUsd fx).2.1
    rateDate := (convertUsdToJpy marketUsd fx).2.2
    confidence := "Medium" }

/-- Fresh (cache-missing) body of `get_market_value_jpy` (appraisal.py lines
387-438): estimate USD, error out when the estimate is zero (line 391),
convert, and assemble the result dict. -/
def resolveFresh (env : PriceEnv) (card : CardQuery) : Except String MarketValueOk :=
  if estimateMarketValueUsd env card = 0 then Except.error "Unable to estimate market value"
  else Except.ok (marketValueResult (estimateMarketValueUsd env card) env.fx)

/-! ## Result cache (appraisal.py lines 17-19 and 371-438) -/

/-- In-memory appraisal cache: key, cached result, insertion time in seconds.
The Python module dict is modeled as an association list where insertion
shadows older entries and lookup takes the newest. -/
abbrev AppraisalCache := List (String × MarketValueOk × ℤ)

def cacheLookup (key : String) : AppraisalCache → Option (MarketValueOk × ℤ)
  | [] => none
  | (k, v, t) :: rest => if k = key then some (v, t) else cacheLookup key rest

def cacheDelete (key : String) (c : AppraisalCache) : AppraisalCache :=
  c.filter (fun e => !(e.1 = key))

/-- TTL of five minutes, in seconds (appraisal.py line 19). -/
def cacheTtlSeconds : ℤ := 300

/-- Pipe-separated list body used inside the cache key.  Python formats the
variants with repr quoting around each element; the quoting is omitted here,
which is immaterial because the claims only ever compare keys of equal
identities. -/
def listKeyPart : List String → String
  | [] => ""
  | [v] => v
  | v :: rest => v ++ ", " ++ listKeyPart rest

def variantsKeyPart : Option (List String) → String
  | none => "None"
  | some vs => "[" ++ listKeyPart vs ++ "]"

/-- Composite cache key from every identity field (appraisal.py line 372). -/
def cacheKey (card : CardQuery) : String :=
  card.cardName ++ "|" ++ card.rarity ++ "|" ++ card.setName ++ "|"
    ++ card.cardNumber ++ "|" ++ variantsKeyPart card.variants

/-- Fresh fetch plus cache write-back (appraisal.py lines 387-438): a success
is stored under the key with the current time; the third component counts the
fresh external fetch rounds performed (always 1 here). -/
def finishFresh (env : PriceEnv) (card : CardQuery) (key : String)
    (cache : AppraisalCache) (now : ℤ) :
    Except String MarketValueOk × AppraisalCache × ℕ :=
  match resolveFresh env card with
  | .ok res => (.ok res, (key, res, now) :: cache, 1)
  | .error e => (.error e, cache, 1)

/-- Embedding of `get_market_value_jpy` (appraisal.py lines 349-442): an
unexpired cache entry is returned with zero external fetches unless
force-refresh is set; an expired entry is deleted before refetching.  Returns
(result, cache after the call, external fetch rounds performed). -/
def getMarketValueJpy (env : PriceEnv) (card : CardQuery) (forceRefresh : Bool)
    (cache : AppraisalCache) (now : ℤ) :
    Except String MarketValueOk × AppraisalCache × ℕ :=
  if forceRefresh then finishFresh env card (cacheKey card) cache now
  else
    match cacheLookup (cacheKey card) cache with
    | some (v, t) =>
      if now - t < cacheTtlSeconds then (.ok v, cache, 0)
      else finishFresh env card (cacheKey card) (cacheDelete (cacheKey card) cache) now
    | none => finishFresh env card (cacheKey card) cache now

/-! ## Batch exchange rate (price_tracker.py, `_get_usd_to_jpy`) -/

/-- Embedding of `_get_usd_to_jpy` (price_tracker.py lines 185-196): a 200
response yields the live rate; any non-200 status, parse failure or exception
yields the bare fallback constant 150.0.  The returned value is a plain number
with no field distinguishing the fallback case. -/
def getUsdToJpy (resp : Option ℚ) : ℚ :=
  match resp with
  | some rate => rate
  | none => 150

/-! ## Batch revaluation runner (price_tracker.py, `run_batch_update`) -/

/-- Catalog item of one batch iteration (price_tracker.py lines 236-240). -/
structure BatchProduct where
  id : String
  title : String
  setName : String
  cardNumber : String
deriving DecidableEq, Repr

/-- Counters of one batch run (price_tracker.py lines 228-231 and 299-302). -/
structure BatchStats where
  updated : ℕ
  failed : ℕ
  skipped : ℕ
  total : ℕ
deriving DecidableEq, Repr

/-- External-world outcome of one non-skipped batch iteration: the price fetch
returned None, or it returned a price and the snapshot commit succeeded or
failed, or the iteration body raised unexpectedly. -/
inductive BatchItemOutcome where
  | fetchFailed
  | priced (priceUsd : ℚ) (dbCommitOk : Bool)
  | raised
deriving DecidableEq, Repr

/-- One iteration of the batch loop (price_tracker.py lines 236-290): items
with an empty or "Draft" title are skipped; a None fetch, a DB error, or an
unexpected exception counts as failed; a committed snapshot counts as updated. -/
def batchStep (outcome : BatchItemOutcome) (p : BatchProduct) (s : BatchStats) : BatchStats :=
  if p.title = "" || p.title = "Draft" then { s with skipped := s.skipped + 1 }
  else
    match outcome with
    | .fetchFailed => { s with failed := s.failed + 1 }
    | .raised => { s with failed := s.failed + 1 }
    | .priced _ dbOk =>
      if dbOk then { s with updated := s.updated + 1 } else { s with failed := s.failed + 1 }

def batchLoop (outcomes : ℕ → BatchItemOutcome) : ℕ → List BatchProduct → BatchStats → BatchStats
  | _, [], s => s
  | i, p :: rest, s => batchLoop outcomes (i + 1) rest (batchStep (outcomes i) p s)

/-- Embedding of `run_batch_update` (price_tracker.py lines 206-302): with no
PriceCharting API key the run aborts before starting and returns zeroed
counters with total set to the catalog size (lines 218-222); otherwise every
item is processed in order. -/
def runBatchUpdate (apiKeyPresent : Bool) (outcomes : ℕ → BatchItemOutcome)
    (products : List BatchProduct) : BatchStats :=
  if !apiKeyPresent then
    { updated := 0, failed := 0, skipped := 0, total := products.length }
  else
    batchLoop outcomes 0 products { updated := 0, failed := 0, skipped := 0, total := products.length }

/-! ## Gainers ranking (store.py, `_get_hot_picks`) -/

/-- Product as seen by the hot-picks ranking: its id and listed price. -/
structure HPProduct where
  id : String
  price : ℚ
deriving DecidableEq, Repr

/-- Output entry of the hot-picks ranking: the product decorated with a growth
percentage; the market price is present only for entries of the real gainers
branch (store.py lines 60-63), never for the fallback branch. -/
structure HotPick where
  id : String
  price : ℚ
  growth : ℚ
  marketPrice : Option ℤ
deriving DecidableEq, Repr

/-- Product ids considered (store.py line 24): ids present and nonempty. -/
def hpProductIds (products : List HPProduct) : List String :=
  (products.filter (fun p => !(p.id = ""))).map (fun p => p.id)

/-- Gainer entry of one product id (store.py lines 31-48): with at least two
snapshots (most recent first, as the descending query delivers them) and a
positive previous value, the rounded percentage change over the two most
recent snapshots, kept only when strictly positive.  The snapshot table maps a
product id to its recorded JPY values, newest first. -/
def gainerEntryFor (snaps : String → List ℤ) (pid : String) : Option (String × ℚ × ℤ) :=
  match (snaps pid).take 2 with
  | [latest, previous] =>
    if 0 < previous then
      if 0 < pyRound1 (((latest : ℚ) - (previous : ℚ)) / (previous : ℚ) * 100) then
        some (pid, pyRound1 (((latest : ℚ) - (previous : ℚ)) / (previous : ℚ) * 100), latest)
      else none
    else none
  | _ => none

/-- All gainer triples, in product order (store.py lines 30-48). -/
def gainerEntries (productIds : List String) (snaps : String → List ℤ) :
    List (String × ℚ × ℤ) :=
  productIds.filterMap (gainerEntryFor snaps)

/-- Stable descending sort by a rational key: CPython list.sort with
reverse=True keeps equal keys in encounter order, and so does insertion sort
with this non-strict comparison. -/
def sortDescBy (key : α → ℚ) (l : List α) : List α :=
  List.insertionSort (fun a b => key b ≤ key a) l

/-- First matching gainer entry for an id.  The Python dict comprehension over
gainers keeps the last duplicate, but duplicate ids carry identical snapshot
data and hence identical entries, so first-match lookup agrees with it. -/
def lookupGainer (pid : String) : List (String × ℚ × ℤ) → Option (ℚ × ℤ)
  | [] => none
  | (k, pct, latest) :: rest =>
    if k = pid then some (pct, latest) else lookupGainer pid rest

/-- Gainer triples sorted by percentage descending (store.py line 51). -/
def hpGainersSorted (products : List HPProduct) (snaps : String → List ℤ) :
    List (String × ℚ × ℤ) :=
  sortDescBy (fun g => g.2.1) (gainerEntries (hpProductIds products) snaps)

/-- Top six gainer triples (store.py line 52). -/
def hpTop (products : List HPProduct) (snaps : String → List ℤ) :
    List (String × ℚ × ℤ) :=
  (hpGainersSorted products snaps).take 6

/-- Products decorated with their gainer data (store.py lines 56-63). -/
def hpPicks (products : List HPProduct) (snaps : String → List ℤ) : List HotPick :=
  products.filterMap (fun p =>
    match lookupGainer p.id (hpTop products snaps) with
    | some (pct, latest) =>
      some { id := p.id, price := p.price, growth := pct, marketPrice := some latest }
    | none => none)

/-- Embedding of `_get_hot_picks` (store.py lines 18-72): compute gainer
triples, sort them by percentage descending, keep the top 6; when any exist,
decorate the matching products and re-sort by growth; otherwise fall back to
the six highest-priced products with a mock growth value (the Python
random.uniform draw is modeled by the `randGrowth` argument, indexed by the
position in the fallback list). -/
def hotPicks (products : List HPProduct) (snaps : String → List ℤ)
    (randGrowth : ℕ → ℚ) : List HotPick :=
  if (hpProductIds products).isEmpty then []
  else if !(hpTop products snaps).isEmpty then
    (sortDescBy (fun hp => hp.growth) (hpPicks products snaps)).take 6
  else
    ((sortDescBy (fun p => p.price) products).take 6).enum.map
      (fun e => { id := e.2.id, price := e.2.price, growth := randGrowth e.1, marketPrice := none })

/-! ## Concrete probe data -/

/-- Probe candidate with the higher price. -/
def candA : Candidate := { name := "Pikachu 1", consoleName := "", price := 10 }

/-- Probe candidate with the lower price. -/
def candB : Candidate := { name := "Pikachu 2", consoleName := "", price := 5 }

/-! ## Probe data and instances used by the witnesses -/

/-- Probe environment for the cache witness: both real tiers empty, FX failed. -/
def envW : PriceEnv := { apiPrice := none, scrapePrice := none, fx := .failed }

/-- Probe identity for the cache witness. -/
def cardW : CardQuery :=
  { cardName := "X", rarity := "Common", setName := "", cardNumber := "", variants := none }

/-- Fresh result the probe environment produces for the probe identity. -/
def resW : MarketValueOk := marketValueResult (estimateMarketValueUsd envW cardW) envW.fx

/-- Cache contents after the first fresh resolution of the probe identity. -/
def cacheW : AppraisalCache := [(cacheKey cardW, resW, 0)]

instance descKeyTotal (key : α → ℚ) : IsTotal α (fun a b => key b ≤ key a) :=
  ⟨fun a b => (le_total (key b) (key a)).imp id id⟩

instance descKeyTrans (key : α → ℚ) : IsTrans α (fun a b => key b ≤ key a) :=
  ⟨fun _ _ _ h1 h2 => le_trans h2 h1⟩

/-! ## Helper lemmas: narrowing stages -/

theorem ite_fallback_sublist {α : Type} {l m : List α} (hm : m.Sublist l) :
    (if m.isEmpty then l else m).Sublist l := by
  split
  · exact List.Sublist.refl l
  · exact hm

theorem ite_fallback_ne_nil {α : Type} {l m : List α} (hl : l ≠ []) :
    (if m.isEmpty then l else m) ≠ [] := by
  split
  · exact hl
  · next h => simpa [List.isEmpty_iff] using h

theorem nameFilter_sublist (n : String) (l : List Candidate) : (nameFilter n l).Sublist l := by
  unfold nameFilter
  split
  · exact List.Sublist.refl l
  · exact ite_fallback_sublist (List.filter_sublist l)

theorem nameFilter_ne_nil (n : String) {l : List Candidate} (hl : l ≠ []) :
    nameFilter n l ≠ [] := by
  unfold nameFilter
  split
  · exact hl
  · exact ite_fallback_ne_nil hl

theorem setFilter_sublist (n : String) (l : List Candidate) : (setFilter n l).Sublist l := by
  unfold setFilter
  split
  · exact List.Sublist.refl l
  · exact ite_fallback_sublist (List.filter_sublist l)

theorem setFilter_ne_nil (n : String) {l : List Candidate} (hl : l ≠ []) :
    setFilter n l ≠ [] := by
  unfold setFilter
  split
  · exact hl
  · exact ite_fallback_ne_nil hl

theorem numberFilter_sublist (n : String) (l : List Candidate) : (numberFilter n l).Sublist l := by
  unfold numberFilter
  split
  · exact List.Sublist.refl l
  · exact ite_fallback_sublist (List.filter_sublist l)

theorem numberFilter_ne_nil (n : String) {l : List Candidate} (hl : l ≠ []) :
    numberFilter n l ≠ [] := by
  unfold numberFilter
  split
  · exact hl
  · exact ite_fallback_ne_nil hl

theorem iteKeep_sublist {α : Type} {l m : List α} (hm : m.Sublist l) :
    (if !m.isEmpty then m else l).Sublist l := by
  split
  · exact hm
  · exact List.Sublist.refl l

theorem iteKeep_ne_nil {α : Type} {l m : List α} (hl : l ≠ []) :
    (if !m.isEmpty then m else l) ≠ [] := by
  split
  · next h => simpa [List.isEmpty_iff] using h
  · exact hl

theorem iteKeep2_sublist {α : Type} {l m m2 : List α} (hm : m.Sublist l) (hm2 : m2.Sublist l) :
    (if !m.isEmpty then m else if !m2.isEmpty then m2 else l).Sublist l := by
  split
  · exact hm
  · exact iteKeep_sublist hm2

theorem iteKeep2_ne_nil {α : Type} {l m m2 : List α} (hl : l ≠ []) :
    (if !m.isEmpty then m else if !m2.isEmpty then m2 else l) ≠ [] := by
  split
  · next h => simpa [List.isEmpty_iff] using h
  · exact iteKeep_ne_nil hl

theorem filterByLanguage_sublist (l : List Candidate) (isJ : Bool) :
    (filterByLanguage l isJ).Sublist l := by
  unfold filterByLanguage
  split
  · exact List.Sublist.refl l
  · split
    · exact iteKeep2_sublist (List.filter_sublist l) (List.filter_sublist l)
    · exact iteKeep_sublist (List.filter_sublist l)

theorem filterByLanguage_ne_nil {l : List Candidate} (hl : l ≠ []) (isJ : Bool) :
    filterByLanguage l isJ ≠ [] := by
  unfold filterByLanguage
  split
  · exact hl
  · split
    · exact iteKeep2_ne_nil hl
    · exact iteKeep_ne_nil hl

theorem filterCascade_sublist (n s c : String) (isJ : Bool) (l : List Candidate) :
    (filterCascade n s c isJ l).Sublist l := by
  unfold filterCascade
  exact ((filterByLanguage_sublist _ isJ).trans
    ((numberFilter_sublist c _).trans ((setFilter_sublist s _).trans (nameFilter_sublist n l))))

theorem filterCascade_ne_nil (n s c : String) (isJ : Bool) {l : List Candidate} (hl : l ≠ []) :
    filterCascade n s c isJ l ≠ [] := by
  unfold filterCascade
  exact filterByLanguage_ne_nil (numberFilter_ne_nil c (setFilter_ne_nil s (nameFilter_ne_nil n hl))) isJ

/-- C3.  For every non-empty input candidate list, each filter-cascade stage
(name containment, set-name containment, card-number variant match, language
match) returns a non-empty sublist of its input — a stage whose match set is
empty keeps its input instead of emptying the working set — and hence the
whole cascade of `_try_pricecharting_api` maps non-empty lists to non-empty
sublists. -/
theorem cascade_stages_narrow_never_empty (n s c : String) (isJ : Bool)
    (l : List Candidate) (hl : l ≠ []) :
    ((nameFilter n l).Sublist l ∧ nameFilter n l ≠ []) ∧
    ((setFilter s l).Sublist l ∧ setFilter s l ≠ []) ∧
    ((numberFilter c l).Sublist l ∧ numberFilter c l ≠ []) ∧
    ((filterByLanguage l isJ).Sublist l ∧ filterByLanguage l isJ ≠ []) ∧
    ((filterCascade n s c isJ l).Sublist l ∧ filterCascade n s c isJ l ≠ []) ∧
    (l.filter (fun item => strHasUp item.name n) = [] → nameFilter n l = l) ∧
    (l.filter (fun item => strHasUp item.name s) = [] → setFilter s l = l) ∧
    (l.filter (fun item => (numberVariations c).any
        (fun v => containsL v (upL item.name.toList))) = [] → numberFilter c l = l) :=
  ⟨⟨nameFilter_sublist n l, nameFilter_ne_nil n hl⟩,
   ⟨setFilter_sublist s l, setFilter_ne_nil s hl⟩,
   ⟨numberFilter_sublist c l, numberFilter_ne_nil c hl⟩,
   ⟨filterByLanguage_sublist l isJ, filterByLanguage_ne_nil hl isJ⟩,
   ⟨filterCascade_sublist n s c isJ l, filterCascade_ne_nil n s c isJ hl⟩,
   by intro h; unfold nameFilter; split
      · rfl
      · simp [h],
   by intro h; unfold setFilter; split
      · rfl
      · simp [h],
   by intro h; unfold numberFilter; split
      · rfl
      · simp only [h]; rfl⟩

/-! ## Helper lemmas: rounding bounds and mock-tier positivity -/

theorem le_pyRoundInt {n : ℤ} {q : ℚ} (h : (n : ℚ) ≤ q) : n ≤ pyRoundInt q := by
  have hf : n ≤ ⌊q⌋ := Int.le_floor.mpr h
  unfold pyRoundInt
  rw [ratFloorZ_eq_floor]
  split
  · exact hf
  · split
    · omega
    · split <;> omega

theorem pyRound2_pos {q : ℚ} (h : 1/2 ≤ q) : 0 < pyRound2 q := by
  unfold pyRound2
  have h50 : (50 : ℤ) ≤ pyRoundInt (q * 100) := le_pyRoundInt (by push_cast; linarith)
  have hq : (0 : ℚ) < ((pyRoundInt (q * 100) : ℤ) : ℚ) := by
    have : (0 : ℤ) < pyRoundInt (q * 100) := by omega
    exact_mod_cast this
  positivity

theorem baseValueOfRarity_ge_half (r : String) : 1/2 ≤ baseValueOfRarity r := by
  unfold baseValueOfRarity
  split_ifs <;> norm_num

theorem one_le_variantMultiplier (v : String) : 1 ≤ variantMultiplier v := by
  unfold variantMultiplier
  split_ifs <;> norm_num

theorem half_le_mockAfterVariants (r : String) (vars : Option (List String)) :
    1/2 ≤ mockAfterVariants r vars := by
  unfold mockAfterVariants
  match vars with
  | none => exact baseValueOfRarity_ge_half r
  | some vs =>
    suffices hgen : ∀ (l : List String) (acc : ℚ), 1/2 ≤ acc →
        1/2 ≤ l.foldl (fun a v => a * variantMultiplier v) acc from
      hgen vs _ (baseValueOfRarity_ge_half r)
    intro l
    induction l with
    | nil => intro acc hacc; exact hacc
    | cons v rest ih =>
      intro acc hacc
      simp only [List.foldl_cons]
      apply ih
      have h1 := one_le_variantMultiplier v
      nlinarith

theorem half_le_mockAfterSets (s : String) {b : ℚ} (hb : 1/2 ≤ b) :
    1/2 ≤ mockAfterSets s b := by
  unfold mockAfterSets
  split
  · nlinarith
  · exact hb

theorem half_le_mockAfterNames (n : String) {b : ℚ} (hb : 1/2 ≤ b) :
    1/2 ≤ mockAfterNames n b := by
  unfold mockAfterNames
  split
  · nlinarith
  · exact hb

theorem mockEstimate_pos (cn r sn : String) (vars : Option (List String)) :
    0 < mockEstimate cn r sn vars :=
  pyRound2_pos (half_le_mockAfterNames cn (half_le_mockAfterSets sn (half_le_mockAfterVariants r vars)))

theorem estimateMarketValueUsd_ne_zero (env : PriceEnv) (card : CardQuery) :
    estimateMarketValueUsd env card ≠ 0 := by
  unfold estimateMarketValueUsd tierValue
  rcases env.apiPrice with _ | p
  · rcases env.scrapePrice with _ | p2
    · simpa using (mockEstimate_pos card.cardName card.rarity card.setName card.variants).ne'
    · by_cases hp : p2 = 0
      · simpa [hp] using (mockEstimate_pos card.cardName card.rarity card.setName card.variants).ne'
      · simp [hp]
  · by_cases hp : p = 0
    · rcases env.scrapePrice with _ | p2
      · simpa [hp] using (mockEstimate_pos card.cardName card.rarity card.setName card.variants).ne'
      · by_cases hp2 : p2 = 0
        · simpa [hp, hp2] using (mockEstimate_pos card.cardName card.rarity card.setName card.variants).ne'
        · simp [hp, hp2]
    · simp [hp]

theorem resolveFresh_ok (env : PriceEnv) (card : CardQuery) :
    resolveFresh env card
      = Except.ok (marketValueResult (estimateMarketValueUsd env card) env.fx) := by
  unfold resolveFresh
  rw [if_neg (estimateMarketValueUsd_ne_zero env card)]

/-! ## Helper lemmas: cheapest-price selection -/

theorem minPriceCand_mem (h : Candidate) (t : List Candidate) : minPriceCand h t ∈ h :: t := by
  induction t generalizing h with
  | nil => simp [minPriceCand]
  | cons c cs ih =>
    simp only [minPriceCand, List.foldl_cons] at *
    by_cases hc : c.price < h.price
    · rw [if_pos hc]
      exact List.mem_cons_of_mem _ (ih c)
    · rw [if_neg hc]
      rcases List.mem_cons.mp (ih h) with h3 | h3
      · rw [h3]; exact List.mem_cons_self _ _
      · exact List.mem_cons_of_mem _ (List.mem_cons_of_mem _ h3)

theorem minPriceCand_le (h : Candidate) (t : List Candidate) :
    ∀ d ∈ h :: t, (minPriceCand h t).price ≤ d.price := by
  induction t generalizing h with
  | nil =>
    intro d hd
    rcases List.mem_cons.mp hd with rfl | hd2
    · simp [minPriceCand]
    · simp at hd2
  | cons c cs ih =>
    intro d hd
    simp only [minPriceCand, List.foldl_cons] at *
    by_cases hc : c.price < h.price
    · rw [if_pos hc]
      rcases List.mem_cons.mp hd with rfl | hd2
      · exact le_trans (ih c c (List.mem_cons_self c cs)) (le_of_lt hc)
      · exact ih c d hd2
    · rw [if_neg hc]
      rcases List.mem_cons.mp hd with rfl | hd2
      · exact ih d d (List.mem_cons_self d cs)
      · rcases List.mem_cons.mp hd2 with rfl | hd3
        · exact le_trans (ih h h (List.mem_cons_self h cs)) (le_of_not_lt hc)
        · exact ih h d (List.mem_cons_of_mem _ hd3)

theorem cheapestPrice_spec {l : List Candidate} (hl : l ≠ []) :
    ∃ c ∈ l, cheapestPrice l = some c.price ∧ ∀ d ∈ l, c.price ≤ d.price := by
  rcases l with _ | ⟨c0, t⟩
  · exact absurd rfl hl
  · exact ⟨minPriceCand c0 t, minPriceCand_mem c0 t, rfl, minPriceCand_le c0 t⟩

/-! ## Helper lemmas: oracle index selection and disambiguation -/

theorem selectByIndices_mem {is : List ℤ} {rs : List Candidate} :
    ∀ x ∈ selectByIndices is rs, x ∈ rs := by
  intro x hx
  rcases List.mem_filterMap.mp hx with ⟨i, _, hsome⟩
  by_cases h : 0 < i ∧ i ≤ (rs.length : ℤ)
  · rw [dif_pos h] at hsome
    cases hsome
    exact List.get_mem rs _ _
  · rw [dif_neg h] at hsome
    cases hsome

theorem geminiFilterCards_failBefore (l : List Candidate) :
    geminiFilterCards .failBeforeCall l = l := rfl

theorem geminiFilterCards_failAfter (l : List Candidate) :
    geminiFilterCards .failAfterCall l = l := rfl

theorem geminiFilterCards_emptyVerdict (l : List Candidate) :
    geminiFilterCards (.verdict []) l = [] := rfl

theorem geminiFilterCards_mem (o : OracleOutcome) (l : List Candidate) :
    ∀ x ∈ geminiFilterCards o l, x ∈ l := by
  intro x hx
  match o with
  | .noKey => exact hx
  | .failBeforeCall => exact hx
  | .failAfterCall => exact hx
  | .verdict is =>
    simp only [geminiFilterCards] at hx
    split at hx
    · cases hx
    · split at hx
      · exact hx
      · exact selectByIndices_mem x hx

theorem geminiDisambiguate_of_le_three (o : OracleOutcome) {l : List Candidate}
    (h : l.length ≤ 3) : geminiDisambiguate o l = l := by
  unfold geminiDisambiguate
  rw [if_pos h]

theorem geminiDisambiguate_failBefore (l : List Candidate) :
    geminiDisambiguate .failBeforeCall l = l := by
  unfold geminiDisambiguate
  split <;> rfl

theorem geminiDisambiguate_failAfter (l : List Candidate) :
    geminiDisambiguate .failAfterCall l = l := by
  unfold geminiDisambiguate
  split <;> rfl

theorem geminiDisambiguate_emptyVerdict (l : List Candidate) :
    geminiDisambiguate (.verdict []) l = l := by
  unfold geminiDisambiguate
  split <;> rfl

theorem geminiDisambiguate_ne_nil (o : OracleOutcome) {l : List Candidate} (hl : l ≠ []) :
    geminiDisambiguate o l ≠ [] := by
  rcases o with _ | _ | _ | is
  · simpa [geminiDisambiguate] using hl
  · simpa [geminiDisambiguate] using hl
  · simpa [geminiDisambiguate] using hl
  · simp only [geminiDisambiguate]
    split
    · exact hl
    · split
      · exact hl
      · split
        · exact hl
        · next hm => simpa [List.isEmpty_iff] using hm

theorem geminiDisambiguate_mem (o : OracleOutcome) (l : List Candidate) :
    ∀ x ∈ geminiDisambiguate o l, x ∈ l := by
  intro x hx
  rcases o with _ | _ | _ | is
  · simp only [geminiDisambiguate] at hx
    split at hx <;> exact hx
  · simp only [geminiDisambiguate] at hx
    split at hx <;> exact hx
  · simp only [geminiDisambiguate] at hx
    split at hx <;> exact hx
  · simp only [geminiDisambiguate] at hx
    split at hx
    · exact hx
    · split at hx
      · exact hx
      · split at hx
        · exact hx
        · exact selectByIndices_mem x hx

/-! ## C10: oracle index selection is in-bounds and only keeps real candidates -/

theorem selectByIndices_filter_eq (indices : List ℤ) (results : List Candidate) :
    selectByIndices indices results
      = selectByIndices
          (indices.filter (fun i => decide (0 < i) && decide (i ≤ (results.length : ℤ))))
          results := by
  induction indices with
  | nil => rfl
  | cons i rest ih =>
    by_cases h : 0 < i ∧ i ≤ (results.length : ℤ)
    · have hp : (decide (0 < i) && decide (i ≤ (results.length : ℤ))) = true := by
        simp [h.1, h.2]
      simp only [selectByIndices, List.filterMap_cons, List.filter_cons, hp, if_true,
        dif_pos h] at ih ⊢
      rw [ih]
    · have hp : (decide (0 < i) && decide (i ≤ (results.length : ℤ))) = false := by
        rcases not_and_or.mp h with h1 | h1 <;> simp [h1]
      simp only [selectByIndices, List.filterMap_cons, List.filter_cons, hp,
        Bool.false_eq_true, if_false, dif_neg h] at ih ⊢
      exact ih

/-- C10.  For every list of integer indices returned by the disambiguation
oracle, the guarded selection `[results[i-1] for i in indices if 0 < i <= len(results)]`
never goes out of bounds (the embedding is a total function whose access is
protected by the guard), every selected candidate is an element of the
original candidate list, and indices that are non-positive or exceed the list
length are silently discarded: dropping them from the index list does not
change the selection. -/
theorem oracle_index_selection_safe (indices : List ℤ) (results : List Candidate) :
    ((selectByIndices indices results).all (fun x => results.contains x)) = true ∧
    selectByIndices indices results
      = selectByIndices
          (indices.filter (fun i => decide (0 < i) && decide (i ≤ (results.length : ℤ))))
          results := by
  constructor
  · rw [List.all_eq_true]
    intro x hx
    simpa [List.elem_iff] using selectByIndices_mem x hx
  · exact selectByIndices_filter_eq indices results

/-! ## C1: cost gating of the disambiguation oracle -/

/-- C1 (counterexample).  The claim says that a resolution whose post-cascade
candidate list has at most 3 elements never invokes the Gemini oracle.  In the
interactive pipeline (`_try_pricecharting_api`, appraisal.py line 950) the
oracle is invoked unconditionally: here the cascade leaves 2 candidates, below
the threshold, and the pipeline still performs 1 oracle call. -/
theorem c1_small_set_still_calls_oracle :
    (filterCascade "" "" "" false [candA, candB]).length ≤ 3 ∧
    (pricechartingApiResolve (.verdict [1]) "" "" "" false [candA, candB]).2 = 1 := by
  decide

/-- C1 (amended).  The size gate exists only in the batch pipeline: in
`_gemini_disambiguate` (price_tracker.py lines 31-32) a candidate list of at
most 3 elements causes zero oracle calls, disambiguation is the identity, and
the subsequent selection picks the cheapest candidate directly; the
interactive appraisal pipeline instead makes a number of oracle calls that
depends only on the oracle outcome (key configured, failure point), never on
the candidate count. -/
theorem c1_batch_oracle_gated_at_three (o : OracleOutcome) (valid : List Candidate)
    (h : valid.length ≤ 3) :
    geminiDisambiguateCallCount o valid = 0 ∧
    geminiDisambiguate o valid = valid ∧
    cheapestPrice (geminiDisambiguate o valid) = cheapestPrice valid ∧
    (∀ (nq sq cq : String) (isJ : Bool) (v : Candidate) (vs : List Candidate),
      (pricechartingApiResolve o nq sq cq isJ (v :: vs)).2 = geminiFilterCallCount o) := by
  refine ⟨?_, geminiDisambiguate_of_le_three o h, ?_, ?_⟩
  · unfold geminiDisambiguateCallCount
    rw [if_pos h]
  · rw [geminiDisambiguate_of_le_three o h]
  · intro nq sq cq isJ v vs
    simp [pricechartingApiResolve]

theorem c1_batch_oracle_gated_at_three_witness :
    ([candA, candB] : List Candidate).length ≤ 3 ∧
    geminiDisambiguateCallCount (.verdict [1]) [candA, candB] = 0 ∧
    geminiDisambiguate (.verdict [1]) [candA, candB] = [candA, candB] ∧
    (pricechartingApiResolve (.verdict [1]) "" "" "" false [candA, candB]).2
      = geminiFilterCallCount (.verdict [1]) :=
  ⟨by decide,
   (c1_batch_oracle_gated_at_three (.verdict [1]) [candA, candB] (by decide)).1,
   (c1_batch_oracle_gated_at_three (.verdict [1]) [candA, candB] (by decide)).2.1,
   (c1_batch_oracle_gated_at_three (.verdict [1]) [candA, candB] (by decide)).2.2.2
     "" "" "" false candA [candB]⟩

/-! ## C2: cheapest-candidate selection -/

/-- C2 (counterexample).  The claim says the returned value is always the
minimum price among the remaining candidates.  In `_try_pricecharting_api`
(appraisal.py lines 952-956) a non-empty Gemini result returns the price of
its FIRST element: with candidates priced 10 and 5 and the verdict keeping
both, the code returns 10 although candidate candB at price 5 remains. -/
theorem c2_api_first_pick_not_cheapest :
    pricechartingApiSelect (.verdict [1, 2]) [candA, candB] = some candA.price ∧
    candB ∈ geminiFilterCards (.verdict [1, 2]) [candA, candB] ∧
    candB.price < candA.price := by
  decide

/-- C2 (amended).  The cheapest-selection rule holds in the batch pipeline:
for every non-empty candidate list the value returned after disambiguation is
the price of a remaining candidate that is minimal among all remaining
candidates.  In the interactive API pipeline the value is the price of the
first element of the oracle result whenever that result is non-empty; the
minimum over the full filtered set is used only when the oracle returns an
empty selection. -/
theorem c2_cheapest_selection_amended (o : OracleOutcome) (l : List Candidate) (hl : l ≠ []) :
    (∃ c ∈ geminiDisambiguate o l,
        cheapestPrice (geminiDisambiguate o l) = some c.price ∧
        ∀ d ∈ geminiDisambiguate o l, c.price ≤ d.price) ∧
    (∀ g gs, geminiFilterCards o l = g :: gs → pricechartingApiSelect o l = some g.price) ∧
    (geminiFilterCards o l = [] →
      ∃ c ∈ l, pricechartingApiSelect o l = some c.price ∧ ∀ d ∈ l, c.price ≤ d.price) := by
  refine ⟨cheapestPrice_spec (geminiDisambiguate_ne_nil o hl), ?_, ?_⟩
  · intro g gs hg
    unfold pricechartingApiSelect
    rw [hg]
  · intro hg
    unfold pricechartingApiSelect
    rw [hg]
    exact cheapestPrice_spec hl

theorem c2_cheapest_selection_amended_witness :
    ∃ c ∈ geminiDisambiguate (.verdict [2]) [candA, candB],
      cheapestPrice (geminiDisambiguate (.verdict [2]) [candA, candB]) = some c.price ∧
      ∀ d ∈ geminiDisambiguate (.verdict [2]) [candA, candB], c.price ≤ d.price :=
  (c2_cheapest_selection_amended (.verdict [2]) [candA, candB] (by decide)).1

/-! ## C4: oracle failure handling -/

/-- C4 (counterexample).  The claim says an empty oracle selection is a no-op
and the full pre-disambiguation candidate set carries forward.  In
`_try_pricecharting_scrape` (appraisal.py lines 1213-1254) an empty Gemini
result abandons the filtered candidates: with a single candidate and no
suggestion-link price the tier returns nothing instead of that candidate's
price. -/
theorem c4_scrape_empty_verdict_drops_candidates :
    pricechartingScrapeSelect (.verdict []) none [candA] false = none ∧
    cheapestPrice [candA] = some candA.price := by
  decide

/-- C4 (amended).  An oracle failure before or after the call is a no-op in
every pipeline (the full candidate set carries forward) and never fails the
request; an EMPTY oracle selection is a no-op in the batch pipeline and, in
the interactive API pipeline, falls back to the cheapest of the full filtered
set — but in the scrape pipeline it abandons the candidate set and the tier
falls through to suggestion-link scraping (its price, or nothing). -/
theorem c4_oracle_failure_noop_amended (l : List Candidate) (sp : Option ℚ) (isJ : Bool) :
    geminiFilterCards .failBeforeCall l = l ∧
    geminiFilterCards .failAfterCall l = l ∧
    geminiDisambiguate .failBeforeCall l = l ∧
    geminiDisambiguate .failAfterCall l = l ∧
    geminiDisambiguate (.verdict []) l = l ∧
    (l ≠ [] → ∃ c ∈ l, pricechartingApiSelect (.verdict []) l = some c.price ∧
        ∀ d ∈ l, c.price ≤ d.price) ∧
    pricechartingScrapeSelect (.verdict []) sp l isJ = sp := by
  refine ⟨rfl, rfl, geminiDisambiguate_failBefore l, geminiDisambiguate_failAfter l,
    geminiDisambiguate_emptyVerdict l, ?_, rfl⟩
  intro hl
  unfold pricechartingApiSelect
  exact cheapestPrice_spec hl

theorem c4_oracle_failure_noop_amended_witness :
    ∃ c ∈ [candA, candB], pricechartingApiSelect (.verdict []) [candA, candB] = some c.price ∧
      ∀ d ∈ [candA, candB], c.price ≤ d.price :=
  (c4_oracle_failure_noop_amended [candA, candB] none false).2.2.2.2.2.1 (by decide)

theorem cascade_stages_narrow_never_empty_witness :
    ((nameFilter "Pikachu" [candA, candB]).Sublist [candA, candB] ∧
      nameFilter "Pikachu" [candA, candB] ≠ []) ∧
    filterCascade "Pikachu" "sA" "1" false [candA, candB] ≠ [] :=
  ⟨(cascade_stages_narrow_never_empty "Pikachu" "sA" "1" false [candA, candB] (by decide)).1,
   (cascade_stages_narrow_never_empty "Pikachu" "sA" "1" false [candA, candB] (by decide)).2.2.2.2.1.2⟩

/-! ## C5: the mock tier makes the error branch unreachable -/

theorem finishFresh_eq (env : PriceEnv) (card : CardQuery) (key : String)
    (cache : AppraisalCache) (now : ℤ) :
    finishFresh env card key cache now
      = (Except.ok (marketValueResult (estimateMarketValueUsd env card) env.fx),
         (key, marketValueResult (estimateMarketValueUsd env card) env.fx, now) :: cache, 1) := by
  unfold finishFresh
  rw [resolveFresh_ok]

theorem getMarketValueJpy_ok (env : PriceEnv) (card : CardQuery) (fr : Bool)
    (cache : AppraisalCache) (now : ℤ) :
    ∃ res cache2 n, getMarketValueJpy env card fr cache now = (Except.ok res, cache2, n) := by
  rcases fr
  · cases hcl : cacheLookup (cacheKey card) cache with
    | none =>
      simp only [getMarketValueJpy, hcl, Bool.false_eq_true, if_false]
      exact ⟨_, _, _, finishFresh_eq env card _ cache now⟩
    | some vt =>
      rcases vt with ⟨v, t⟩
      simp only [getMarketValueJpy, hcl, Bool.false_eq_true, if_false]
      by_cases hf : now - t < cacheTtlSeconds
      · rw [if_pos hf]
        exact ⟨v, cache, 0, rfl⟩
      · rw [if_neg hf]
        exact ⟨_, _, _, finishFresh_eq env card _ _ now⟩
  · simp only [getMarketValueJpy, if_true]
    exact ⟨_, _, _, finishFresh_eq env card _ cache now⟩

/-- C5.  For every card identity, when both the PriceCharting API tier and the
HTML-scrape tier yield nothing, the mock-estimate tier produces a strictly
positive USD value, the tier chain returns exactly that value, and the
resolution never takes the "Unable to estimate market value" branch: both the
fresh path and the whole cached operation return a success result. -/
theorem mock_tier_never_fails (env : PriceEnv) (card : CardQuery) (fr : Bool)
    (cache : AppraisalCache) (now : ℤ)
    (hapi : env.apiPrice = none) (hscrape : env.scrapePrice = none) :
    0 < mockEstimate card.cardName card.rarity card.setName card.variants ∧
    estimateMarketValueUsd env card
      = mockEstimate card.cardName card.rarity card.setName card.variants ∧
    resolveFresh env card
      = Except.ok (marketValueResult (estimateMarketValueUsd env card) env.fx) ∧
    ∃ res cache2 n, getMarketValueJpy env card fr cache now = (Except.ok res, cache2, n) := by
  refine ⟨mockEstimate_pos _ _ _ _, ?_, resolveFresh_ok env card,
    getMarketValueJpy_ok env card fr cache now⟩
  unfold estimateMarketValueUsd
  rw [hapi, hscrape]
  rfl

theorem mock_tier_never_fails_witness :
    0 < mockEstimate "X" "Common" "" none ∧
    estimateMarketValueUsd { apiPrice := none, scrapePrice := none, fx := .failed }
        { cardName := "X", rarity := "Common", setName := "", cardNumber := "", variants := none }
      = mockEstimate "X" "Common" "" none :=
  ⟨(mock_tier_never_fails { apiPrice := none, scrapePrice := none, fx := .failed }
      { cardName := "X", rarity := "Common", setName := "", cardNumber := "", variants := none }
      false [] 0 rfl rfl).1,
   (mock_tier_never_fails { apiPrice := none, scrapePrice := none, fx := .failed }
      { cardName := "X", rarity := "Common", setName := "", cardNumber := "", variants := none }
      false [] 0 rfl rfl).2.1⟩

/-! ## C6: TTL cache behavior and force refresh -/

/-- C6.  If a resolution with force refresh off runs against a cache with no
entry for the identity and succeeds, then a second resolution of the same
identity with force refresh off within the 5-minute TTL performs zero external
fetch rounds, returns the identical result, and leaves the cache unchanged;
a call with force refresh on always performs one fresh external fetch round
and, being always successful, overwrites the cache entry for the identity
with its fresh result at the new time. -/
theorem cache_ttl_and_force_refresh (env env2 : PriceEnv) (card : CardQuery)
    (cache : AppraisalCache) (now now2 : ℤ) (res : MarketValueOk)
    (cache1 : AppraisalCache) (n : ℕ)
    (hmiss : cacheLookup (cacheKey card) cache = none)
    (hfirst : getMarketValueJpy env card false cache now = (Except.ok res, cache1, n))
    (httl : now2 - now < cacheTtlSeconds) :
    getMarketValueJpy env2 card false cache1 now2 = (Except.ok res, cache1, 0) ∧
    (getMarketValueJpy env2 card true cache1 now2).2.2 = 1 ∧
    ∃ res2, (getMarketValueJpy env2 card true cache1 now2).1 = Except.ok res2 ∧
      cacheLookup (cacheKey card) (getMarketValueJpy env2 card true cache1 now2).2.1
        = some (res2, now2) := by
  have hfirst2 : getMarketValueJpy env card false cache now
      = (Except.ok (marketValueResult (estimateMarketValueUsd env card) env.fx),
         (cacheKey card, marketValueResult (estimateMarketValueUsd env card) env.fx, now)
           :: cache, 1) := by
    simp only [getMarketValueJpy, hmiss, Bool.false_eq_true, if_false]
    exact finishFresh_eq env card _ cache now
  rw [hfirst] at hfirst2
  have hres : res = marketValueResult (estimateMarketValueUsd env card) env.fx := by
    have h1 := congrArg (fun x => x.1) hfirst2
    simpa using h1
  have hcache : cache1
      = (cacheKey card, marketValueResult (estimateMarketValueUsd env card) env.fx, now)
          :: cache := by
    have h1 := congrArg (fun x => x.2.1) hfirst2
    simpa using h1
  subst hres
  subst hcache
  have hlook : cacheLookup (cacheKey card)
      ((cacheKey card, marketValueResult (estimateMarketValueUsd env card) env.fx, now) :: cache)
      = some (marketValueResult (estimateMarketValueUsd env card) env.fx, now) := by
    simp [cacheLookup]
  refine ⟨?_, ?_, ?_⟩
  · simp only [getMarketValueJpy, Bool.false_eq_true, if_false, hlook]
    rw [if_pos httl]
  · simp only [getMarketValueJpy, if_true, finishFresh_eq]
  · refine ⟨marketValueResult (estimateMarketValueUsd env2 card) env2.fx, ?_, ?_⟩
    · simp only [getMarketValueJpy, if_true, finishFresh_eq]
    · simp only [getMarketValueJpy, if_true, finishFresh_eq]
      simp [cacheLookup]

theorem cache_ttl_and_force_refresh_witness :
    getMarketValueJpy envW cardW false cacheW 100 = (Except.ok resW, cacheW, 0) :=
  (cache_ttl_and_force_refresh envW envW cardW [] 0 100 resW cacheW 1 rfl
    (finishFresh_eq envW cardW (cacheKey cardW) [] 0) (by decide)).1

/-! ## C7: batch statistics equation -/

theorem batchStep_sum (o : BatchItemOutcome) (p : BatchProduct) (s : BatchStats) :
    (batchStep o p s).updated + (batchStep o p s).failed + (batchStep o p s).skipped
      = s.updated + s.failed + s.skipped + 1 ∧
    (batchStep o p s).total = s.total := by
  unfold batchStep
  split
  · constructor
    · simp
      try omega
    · rfl
  · rcases o with _ | ⟨pu, db⟩ | _
    · constructor
      · simp
        try omega
      · rfl
    · cases db
      · constructor
        · simp
          try omega
        · rfl
      · constructor
        · simp
          try omega
        · rfl
    · constructor
      · simp
        try omega
      · rfl

theorem batchLoop_sum (outcomes : ℕ → BatchItemOutcome) :
    ∀ (ps : List BatchProduct) (i : ℕ) (s : BatchStats),
    (batchLoop outcomes i ps s).updated + (batchLoop outcomes i ps s).failed
        + (batchLoop outcomes i ps s).skipped
      = s.updated + s.failed + s.skipped + ps.length ∧
    (batchLoop outcomes i ps s).total = s.total := by
  intro ps
  induction ps with
  | nil =>
    intro i s
    exact ⟨by simp [batchLoop], rfl⟩
  | cons p rest ih =>
    intro i s
    have hstep := batchStep_sum (outcomes i) p s
    have hrest := ih (i + 1) (batchStep (outcomes i) p s)
    unfold batchLoop
    refine ⟨?_, ?_⟩
    · rw [hrest.1, hstep.1]
      simp
      omega
    · rw [hrest.2, hstep.2]

/-- C7 (counterexample).  The claim says updated + failed + skipped equals the
total on every exit path of the run.  On the missing-API-key abort path
(price_tracker.py lines 218-222) the returned stats are all zero while total
is the catalog size: for a one-item catalog the equation fails. -/
theorem c7_missing_key_breaks_stats_equation :
    (runBatchUpdate false (fun _ => .fetchFailed)
        [{ id := "p1", title := "Pikachu", setName := "", cardNumber := "" }]).updated
      + (runBatchUpdate false (fun _ => .fetchFailed)
        [{ id := "p1", title := "Pikachu", setName := "", cardNumber := "" }]).failed
      + (runBatchUpdate false (fun _ => .fetchFailed)
        [{ id := "p1", title := "Pikachu", setName := "", cardNumber := "" }]).skipped
      ≠ (runBatchUpdate false (fun _ => .fetchFailed)
        [{ id := "p1", title := "Pikachu", setName := "", cardNumber := "" }]).total := by
  decide

/-- C7 (amended).  Whenever the PriceCharting API key is configured, every
iteration of the batch run increments exactly one of the three counters, so on
every exit of the loop the returned (and persisted) stats satisfy
updated + failed + skipped = total = N for an N-item catalog.  When the key is
missing, the run aborts before starting and returns zeroed counters with
total = N, which violates the equation for any non-empty catalog. -/
theorem c7_batch_stats_equation_amended (outcomes : ℕ → BatchItemOutcome)
    (products : List BatchProduct) :
    (runBatchUpdate true outcomes products).updated
        + (runBatchUpdate true outcomes products).failed
        + (runBatchUpdate true outcomes products).skipped
      = (runBatchUpdate true outcomes products).total ∧
    (runBatchUpdate true outcomes products).total = products.length := by
  have h := batchLoop_sum outcomes products 0
    { updated := 0, failed := 0, skipped := 0, total := products.length }
  unfold runBatchUpdate
  simp only [Bool.not_true, Bool.false_eq_true, if_false]
  exact ⟨by rw [h.1, h.2]; simp, h.2⟩

/-! ## C9: currency-conversion fallback -/

unseal Rat.mul Rat.add Rat.sub Rat.inv in
theorem pyRound2_fallbackRate : pyRound2 fallbackUsdJpyRate = fallbackUsdJpyRate := by
  decide

/-- C9 (counterexample).  The claim says every failed conversion returns a
result explicitly flagged as using a fallback rate.  The batch conversion
`_get_usd_to_jpy` (price_tracker.py lines 185-196) returns a bare number: its
failure result is literally identical to a live success that happens to return
the same 150.0 rate, so no component of the returned value marks the fallback. -/
theorem c9_batch_rate_carries_no_fallback_flag :
    getUsdToJpy none = getUsdToJpy (some 150) ∧ getUsdToJpy none = 150 := by
  decide

/-- C9 (amended).  Neither conversion ever raises.  In the interactive path a
timed-out, failed, or non-success FX lookup yields a success result whose
exchange rate is exactly the fallback constant 153.7 and whose rate-date field
carries the fallback marker "estimated" (the only fallback indicator the
result dict has); the batch path substitutes its fallback constant 150.0 but
returns it as a bare rate with no fallback marking at all. -/
theorem c9_fx_fallback_amended (env : PriceEnv) (card : CardQuery)
    (hfx : env.fx = .non200 ∨ env.fx = .failed) :
    (∃ res, resolveFresh env card = Except.ok res ∧
      res.exchangeRate = fallbackUsdJpyRate ∧ res.rateDate = "estimated" ∧
      res.marketJpy = pyInt (estimateMarketValueUsd env card * fallbackUsdJpyRate)) ∧
    getUsdToJpy none = 150 := by
  refine ⟨⟨marketValueResult (estimateMarketValueUsd env card) env.fx,
    resolveFresh_ok env card, ?_, ?_, ?_⟩, rfl⟩
  · rcases hfx with h | h <;>
      simp [marketValueResult, convertUsdToJpy, h, pyRound2_fallbackRate]
  · rcases hfx with h | h <;> simp [marketValueResult, convertUsdToJpy, h]
  · rcases hfx with h | h <;> simp [marketValueResult, convertUsdToJpy, h]

theorem c9_fx_fallback_amended_witness :
    ∃ res, resolveFresh envW cardW = Except.ok res ∧
      res.exchangeRate = fallbackUsdJpyRate ∧ res.rateDate = "estimated" ∧
      res.marketJpy = pyInt (estimateMarketValueUsd envW cardW * fallbackUsdJpyRate) :=
  (c9_fx_fallback_amended envW cardW (Or.inr rfl)).1

/-! ## C8: gainers ranking -/

theorem sortDescBy_perm (key : α → ℚ) (l : List α) : (sortDescBy key l).Perm l :=
  List.perm_insertionSort _ l

theorem sortDescBy_pairwise (key : α → ℚ) (l : List α) :
    (sortDescBy key l).Pairwise (fun a b => key b ≤ key a) :=
  List.sorted_insertionSort _ l

theorem gainerEntryFor_of (snaps : String → List ℤ) (pid : String)
    (latest previous : ℤ) (rest : List ℤ)
    (hsnap : snaps pid = latest :: previous :: rest) (hprev : 0 < previous)
    (hpct : 0 < pyRound1 (((latest : ℚ) - (previous : ℚ)) / (previous : ℚ) * 100)) :
    gainerEntryFor snaps pid
      = some (pid, pyRound1 (((latest : ℚ) - (previous : ℚ)) / (previous : ℚ) * 100), latest) := by
  unfold gainerEntryFor
  rw [hsnap]
  simp only [List.take_succ_cons, List.take_zero]
  rw [if_pos hprev, if_pos hpct]

theorem gainerEntryFor_some (snaps : String → List ℤ) (pid : String)
    (e : String × ℚ × ℤ) (h : gainerEntryFor snaps pid = some e) :
    e.1 = pid ∧ 2 ≤ (snaps pid).length ∧ 0 < e.2.1 := by
  unfold gainerEntryFor at h
  split at h
  · next latest previous heq =>
    split at h
    · split at h
      · next hprev hpct =>
        cases h
        refine ⟨rfl, ?_, hpct⟩
        have hl := congrArg List.length heq
        rw [List.length_take] at hl
        simp only [List.length_cons, List.length_nil] at hl
        rcases Nat.le_total 2 (snaps pid).length with h2 | h2
        · exact h2
        · rw [Nat.min_eq_right h2] at hl
          omega
      · cases h
    · cases h
  · cases h

theorem lookupGainer_mem (pid : String) (pct : ℚ) (latest : ℤ) :
    ∀ (l : List (String × ℚ × ℤ)), lookupGainer pid l = some (pct, latest) →
      (pid, pct, latest) ∈ l := by
  intro l
  induction l with
  | nil => intro h; cases h
  | cons e rest ih =>
    rcases e with ⟨k, p2, l2⟩
    intro h
    unfold lookupGainer at h
    by_cases hk : k = pid
    · rw [if_pos hk] at h
      cases h
      subst hk
      exact List.mem_cons_self _ _
    · rw [if_neg hk] at h
      exact List.mem_cons_of_mem _ (ih h)

theorem hpTop_sublist_entries (products : List HPProduct) (snaps : String → List ℤ) :
    ∀ e ∈ hpTop products snaps, e ∈ gainerEntries (hpProductIds products) snaps := by
  intro e he
  have h1 : e ∈ hpGainersSorted products snaps := (List.take_sublist 6 _).mem he
  exact (sortDescBy_perm _ _).mem_iff.mp h1

unseal Rat.mul Rat.add Rat.sub Rat.inv in
/-- C8 (counterexample).  The claim says every item with at least two price
snapshots enters the ranking with pct = (latest - previous) / previous * 100.
Item "a" has two snapshots (latest 80, previous 100, pct = -20%), yet
`_get_hot_picks` keeps only strictly positive changes (store.py line 44), so
"a" is absent from the output and only the +20% item "b" is ranked. -/
theorem c8_decliner_excluded_from_ranking :
    ((fun pid => if pid = "a" then [(80:ℤ), 100] else if pid = "b" then [120, 100] else []) "a").length = 2 ∧
    hotPicks [{ id := "a", price := 1 }, { id := "b", price := 2 }]
        (fun pid => if pid = "a" then [(80:ℤ), 100] else if pid = "b" then [120, 100] else [])
        (fun _ => 3)
      = [{ id := "b", price := 2, growth := 20, marketPrice := some 120 }] := by
  decide

/-- C8 (amended).  An item enters the gainers ranking exactly when it has at
least two snapshots, a positive previous value, and a strictly positive
rounded percentage change pct = (latest - previous) / previous * 100; every
ranked entry carries that pct (so 100 then 120 yields +20.0), the output of
the gainers branch is sorted by growth descending and truncated to the top 6,
and items with fewer than two snapshots never appear in it (the explicit
no-gainers fallback is a separate price ranking). -/
theorem c8_gainers_ranking_amended (products : List HPProduct) (snaps : String → List ℤ)
    (rand : ℕ → ℚ) :
    (∀ p ∈ products, ¬p.id = "" →
      ∀ (latest previous : ℤ) (rest : List ℤ), snaps p.id = latest :: previous :: rest →
      0 < previous →
      0 < pyRound1 (((latest : ℚ) - (previous : ℚ)) / (previous : ℚ) * 100) →
      (p.id, pyRound1 (((latest : ℚ) - (previous : ℚ)) / (previous : ℚ) * 100), latest)
        ∈ gainerEntries (hpProductIds products) snaps) ∧
    (∀ e ∈ gainerEntries (hpProductIds products) snaps,
      2 ≤ (snaps e.1).length ∧ 0 < e.2.1) ∧
    (gainerEntries (hpProductIds products) snaps ≠ [] →
      (∀ hp ∈ hotPicks products snaps rand,
        ∃ e ∈ gainerEntries (hpProductIds products) snaps,
          hp.id = e.1 ∧ hp.growth = e.2.1 ∧ hp.marketPrice = some e.2.2) ∧
      (hotPicks products snaps rand).Pairwise (fun a b => b.growth ≤ a.growth)) ∧
    (hotPicks products snaps rand).length ≤ 6 := by
  refine ⟨?_, ?_, ?_, ?_⟩
  · intro p hp hid latest previous rest hsnap hprev hpct
    refine List.mem_filterMap.mpr ⟨p.id, ?_, gainerEntryFor_of snaps p.id latest previous rest hsnap hprev hpct⟩
    unfold hpProductIds
    exact List.mem_map.mpr ⟨p, List.mem_filter.mpr ⟨hp, by simp [hid]⟩, rfl⟩
  · intro e he
    rcases List.mem_filterMap.mp he with ⟨pid, _, hf⟩
    have h3 := gainerEntryFor_some snaps pid e hf
    exact ⟨by rw [h3.1]; exact h3.2.1, h3.2.2⟩
  · intro hg
    have hids : hpProductIds products ≠ [] := fun h => hg (by simp [gainerEntries, h])
    have htop : hpTop products snaps ≠ [] := by
      unfold hpTop
      intro h0
      rcases List.take_eq_nil_iff.mp h0 with h6 | h0
      · cases h6
      · have hp2 := sortDescBy_perm (fun g => g.2.1)
          (gainerEntries (hpProductIds products) snaps)
        rw [show hpGainersSorted products snaps
            = sortDescBy (fun g => g.2.1) (gainerEntries (hpProductIds products) snaps)
          from rfl] at h0
        rw [h0] at hp2
        exact hg hp2.symm.eq_nil
    have hbranch : hotPicks products snaps rand
        = (sortDescBy (fun hp => hp.growth) (hpPicks products snaps)).take 6 := by
      unfold hotPicks
      rw [if_neg (by simpa [List.isEmpty_iff] using hids)]
      rw [if_pos (by simpa [List.isEmpty_iff] using htop)]
    constructor
    · intro hp hhp
      rw [hbranch] at hhp
      have h1 : hp ∈ sortDescBy (fun hp => hp.growth) (hpPicks products snaps) :=
        (List.take_sublist _ _).subset hhp
      have h2 : hp ∈ hpPicks products snaps := (sortDescBy_perm _ _).mem_iff.mp h1
      rcases List.mem_filterMap.mp h2 with ⟨p, hpmem, hf⟩
      cases hlk : lookupGainer p.id (hpTop products snaps) with
      | none => rw [hlk] at hf; cases hf
      | some pr =>
        rcases pr with ⟨pct, latest⟩
        rw [hlk] at hf
        cases hf
        exact ⟨(p.id, pct, latest),
          hpTop_sublist_entries products snaps _ (lookupGainer_mem p.id pct latest _ hlk),
          rfl, rfl, rfl⟩
    · rw [hbranch]
      exact (sortDescBy_pairwise (fun hp => hp.growth) (hpPicks products snaps)).sublist
        (List.take_sublist _ _)
  · by_cases h1 : (hpProductIds products).isEmpty
    · simp [hotPicks, h1]
    · by_cases h2 : (hpTop products snaps).isEmpty
      · simp only [hotPicks, h1, h2, Bool.not_true, Bool.false_eq_true, if_false,
          List.length_map, List.enum_length, List.length_take]
        omega
      · have h2f : (hpTop products snaps).isEmpty = false := by
          revert h2
          cases (hpTop products snaps).isEmpty <;> simp
        simp only [hotPicks, h1, h2f, Bool.not_false, Bool.false_eq_true, if_false, if_true,
          List.length_take]
        omega

unseal Rat.mul Rat.add Rat.sub Rat.inv in
theorem c8_gainers_ranking_amended_witness :
    ("a", (20 : ℚ), (120 : ℤ))
      ∈ gainerEntries (hpProductIds [{ id := "a", price := 5 }])
          (fun pid => if pid = "a" then [(120:ℤ), 100] else []) := by
  have h := (c8_gainers_ranking_amended [{ id := "a", price := 5 }]
      (fun pid => if pid = "a" then [(120:ℤ), 100] else []) (fun _ => 3)).1
    { id := "a", price := 5 } (by decide) (by decide) 120 100 [] (by decide) (by decide)
    (by decide)
  have he : pyRound1 ((((120:ℤ) : ℚ) - ((100:ℤ) : ℚ)) / ((100:ℤ) : ℚ) * 100) = 20 := by decide
  rw [he] at h
  exact h
